import Mathlib

/-!
Verification of the kcp SyncTarget compatibility / scoped-discovery subsystem
and the per-object sync state machine, as a shallow embedding of the
repository's Go sources:

* `pkg/apis/workload/v1alpha1/types.go` — the SyncTarget data model, the
  per-object label/annotation protocol documented on its constants, and the
  condition types and reasons.
* `test/e2e/reconciler/locationworkspace/synctarget_test.go` — the
  SyncTarget export scenario (expected `SyncedResources` and expected
  discovery document).
* the `crdLister` of the cache server and the `IndexAPIExportBySecret` /
  `IndexAPIExportByIdentity` index functions.

Components whose implementation is not part of the embedded sources (the
compatibility resolver, the status reconciler's heartbeat handling, the
discovery aggregator, and the per-object controllers) are modelled from the
specification; each such definition says so in its doc comment.
-/

namespace KcpWorkload

/-- A (group, resource) pair, the key identifying one synced API resource
(`apisv1alpha1.GroupResource` embedded into `ResourceToSync`). -/
structure GroupResource where
  group : String
  resource : String
deriving DecidableEq, Repr

/-- String value of `ResourceCompatibleState` constant
`ResourceSchemaPendingState` in `types.go`. -/
def ResourceSchemaPendingState : String := "Pending"

/-- String value of `ResourceCompatibleState` constant
`ResourceSchemaAcceptedState` in `types.go`. -/
def ResourceSchemaAcceptedState : String := "Accepted"

/-- String value of `ResourceCompatibleState` constant
`ResourceSchemaIncomptibleState` in `types.go`. -/
def ResourceSchemaIncomptibleState : String := "Incompatible"

/-- `ResourceToSync` from `types.go`: one entry of
`SyncTargetStatus.SyncedResources`.  The Go struct embeds
`apisv1alpha1.GroupResource`; here the two key fields are inlined. -/
structure ResourceToSync where
  group : String
  resource : String
  Versions : List String
  IdentityHash : String
  State : String
deriving DecidableEq, Repr

/-- The (group, resource) key of a `ResourceToSync` entry. -/
def ResourceToSync.key (r : ResourceToSync) : GroupResource :=
  ⟨r.group, r.resource⟩

/-- `ResourceState` constant `ResourceStateSync` from `types.go`: value of
the `state.workload.kcp.dev/<sync-target-name>` label while the syncer
manages the object. -/
def ResourceStateSync : String := "Sync"

/-- `ResourceState` constant `ResourceStatePending` from `types.go`: the
empty label value, under which the syncer ignores the object. -/
def ResourceStatePending : String := ""

/-- Condition type `HeartbeatHealthy` from `types.go`. -/
def HeartbeatHealthy : String := "HeartbeatHealthy"

/-- Condition reason `ErrorHeartbeatMissedReason` from `types.go`:
"indicates that a heartbeat update was not received within the configured
threshold". -/
def ErrorHeartbeatMissedReason : String := "ErrorHeartbeat"

/-- Cluster-aware cache key `<cluster>|<name>` as built by the external
helper `clusters.ToClusterAwareKey` used by both `crdLister.Get` and
`IndexAPIExportBySecret`.  Modelled from the spec: the helper itself is a
vendored dependency, not part of the embedded sources. -/
def ToClusterAwareKey (cluster name : String) : String :=
  cluster ++ "|" ++ name

/-! ### The cache server's `crdLister` (src/unnamed/part_000) -/

/-- A CustomResourceDefinition, reduced to its identity; the lister's
behaviour under scrutiny does not inspect the object. -/
structure CustomResourceDefinition where
  name : String
deriving DecidableEq, Repr

/-- `bootstrap.SystemCRDLogicalCluster`: the fixed logical cluster holding
the cache server's system CRDs.  Modelled from the spec: the constant lives
in `pkg/cache/server/bootstrap`, which is not among the embedded sources;
only its fixedness matters here. -/
def SystemCRDLogicalCluster : String := "system:system-crds"

/-- The request context, insofar as `crdLister.Get` could observe it: it
carries the requesting logical cluster. -/
structure RequestContext where
  cluster : String
deriving DecidableEq, Repr

/-- The `crdLister` of the cache server: wraps a
`CustomResourceDefinitionLister` whose `Get` is keyed by cluster-aware
keys.  The underlying lister is modelled as a partial map from keys to
CRDs. -/
structure crdLister where
  lister : String → Option CustomResourceDefinition

/-- `crdLister.Get` from the source: `return
c.lister.Get(clusters.ToClusterAwareKey(bootstrap.SystemCRDLogicalCluster, name))`.
The `ctx` argument is received but never consulted. -/
def crdLister.Get (c : crdLister) (_ctx : RequestContext) (name : String) :
    Option CustomResourceDefinition :=
  c.lister (ToClusterAwareKey SystemCRDLogicalCluster name)

/-! ### The APIExport indexers (src/unnamed/part_001) -/

/-- `IdentitySecretRef`: namespace and name of the identity secret
referenced by an APIExport. -/
structure SecretRef where
  Namespace : String
  Name : String
deriving DecidableEq, Repr

/-- The `Identity` of an `APIExportSpec`, holding an optional secret
reference. -/
structure APIExportIdentity where
  secretRef : Option SecretRef
deriving DecidableEq, Repr

/-- `APIExportSpec`, reduced to the field `IndexAPIExportBySecret`
inspects. -/
structure APIExportSpec where
  identity : Option APIExportIdentity
deriving DecidableEq, Repr

/-- An `APIExport` object: its logical cluster (what
`logicalcluster.From(apiExport)` reads off the object's annotations) and
its spec. -/
structure APIExport where
  clusterName : String
  spec : APIExportSpec
deriving DecidableEq, Repr

/-- The dynamically typed argument of a client-go index function: either an
`*APIExport` or some other object, of which only the printed type name
matters. -/
inductive IndexObj where
  | apiExport (e : APIExport)
  | other (typeName : String)
deriving DecidableEq, Repr

/-- `IndexAPIExportBySecret` from the source: errors when the argument is
not an APIExport; yields no key when `Spec.Identity` is nil, the secret ref
is nil, or its namespace or name is empty; otherwise yields the single key
`<namespace>/<cluster-aware key of the secret name>`. -/
def IndexAPIExportBySecret : IndexObj → Except String (List String)
  | .other t => .error ("obj " ++ t ++ " is not an APIExport")
  | .apiExport e =>
    match e.spec.identity with
    | none => .ok []
    | some idty =>
      match idty.secretRef with
      | none => .ok []
      | some ref =>
        if ref.Namespace = "" ∨ ref.Name = "" then .ok []
        else .ok [ref.Namespace ++ "/" ++ ToClusterAwareKey e.clusterName ref.Name]

/-! ### The compatibility resolver (spec §4.1) -/

/-- A reference to an APIExport in `SyncTargetSpec.SupportedAPIExports`:
workspace path plus export name. -/
structure ExportRef where
  path : String
  exportName : String
deriving DecidableEq, Repr

/-- One resource schema as known to the schema catalog: its group,
resource, and the ordered list of versions the catalog declares for it. -/
structure APIResourceSchemaInfo where
  group : String
  resource : String
  versions : List String
deriving DecidableEq, Repr

/-- The catalog's answer for one export reference: the export's identity
hash and its ordered latest resource schemas. -/
structure ExportSchemas where
  identityHash : String
  schemas : List APIResourceSchemaInfo
deriving DecidableEq, Repr

/-- A syncer capability report: for each (group, resource) the versions the
syncer understands downstream.  A resource absent from the report is one
the syncer cannot handle. -/
def CapabilityReport := List (GroupResource × List String)

/-- Versions the syncer reported for a given (group, resource); `[]` when
the resource is absent from the report. -/
def reportedVersions (rep : CapabilityReport) (gr : GroupResource) : List String :=
  match rep.find? (fun p => p.1 = gr) with
  | some p => p.2
  | none => []

/-- Modelled from the spec (§4.1, not in the embedded sources): the
compatibility state of one candidate tuple.  Before the syncer has reported
at all the state is Pending; once a report exists, the state is Accepted
when at least one catalog-declared version overlaps the reported versions,
and Incompatible otherwise (in particular for resources the report
omits, which Scenario A requires to be Incompatible rather than
Pending). -/
def compatState (rep : Option CapabilityReport) (gr : GroupResource)
    (versions : List String) : String :=
  match rep with
  | none => ResourceSchemaPendingState
  | some r =>
    if versions.any (fun v => (reportedVersions r gr).contains v) then
      ResourceSchemaAcceptedState
    else
      ResourceSchemaIncomptibleState

/-- Deduplicate a candidate list by (group, resource) key, keeping the
first occurrence; `seen` accumulates the keys already emitted. -/
def dedupKeysAux (seen : List GroupResource) :
    List ResourceToSync → List ResourceToSync
  | [] => []
  | r :: rest =>
    if r.key ∈ seen then dedupKeysAux seen rest
    else r :: dedupKeysAux (r.key :: seen) rest

/-- Modelled from the spec (§4.1, not in the embedded sources): the
compatibility resolver.  For each export reference in spec order, fetch its
latest schemas from the catalog (an unresolved reference is skipped); build
one candidate per schema carrying the catalog versions, the export's
identity hash and the compatibility state; never emit an empty version
list; deduplicate by (group, resource), first export in spec order
winning. -/
def Resolve (supportedAPIExports : List ExportRef)
    (catalog : ExportRef → Option ExportSchemas)
    (rep : Option CapabilityReport) : List ResourceToSync :=
  dedupKeysAux [] (supportedAPIExports.flatMap fun ref =>
    match catalog ref with
    | none => []
    | some es => es.schemas.filterMap fun s =>
        if s.versions = [] then none
        else some { group := s.group, resource := s.resource,
                    Versions := s.versions, IdentityHash := es.identityHash,
                    State := compatState rep ⟨s.group, s.resource⟩ s.versions })

/-! ### Scenario A (TestSyncTargetExport) -/

/-- The export reference the test patches into the SyncTarget:
`{workspace: {path: <schema workspace>, exportName: services}}`. -/
def servicesExportRef : ExportRef := ⟨"root:org:schema-ws", "services"⟩

/-- The catalog of Scenario A: the export "services" has latest resource
schemas `test.services.core` and `today.cowboys.wildwest.dev`, in that
order. -/
def scenarioACatalog : ExportRef → Option ExportSchemas := fun r =>
  if r = servicesExportRef then
    some { identityHash := "services-identity-hash",
           schemas := [⟨"", "services", ["v1"]⟩,
                       ⟨"wildwest.dev", "cowboys", ["v1alpha1"]⟩] }
  else none

/-- The capability report of Scenario A: the sync target reports capability
only for `services`. -/
def scenarioAReport : CapabilityReport := [(⟨"", "services"⟩, ["v1"])]

/-- The resolved `SyncedResources` of Scenario A, in the resolver's spec
order. -/
def scenarioAResolved : List ResourceToSync :=
  Resolve [servicesExportRef] scenarioACatalog (some scenarioAReport)

/-- The check `TestSyncTargetExport` performs on
`syncTarget.Status.SyncedResources` (lines 118–139 of the test): exactly
two entries, entry 0 is `cowboys` with state Incompatible, entry 1 is
`services` with state Accepted. -/
def testSyncedResourcesCheck (l : List ResourceToSync) : Bool :=
  match l with
  | [a, b] =>
    decide (b.resource = "services") && decide (b.State = ResourceSchemaAcceptedState)
      && decide (a.resource = "cowboys") && decide (a.State = ResourceSchemaIncomptibleState)
  | _ => false

/-- Lexicographic order on char lists by code point, used to sort discovery
and status lists by name. -/
def charListLe : List Char → List Char → Bool
  | [], _ => true
  | _ :: _, [] => false
  | a :: as, b :: bs =>
    if a.toNat < b.toNat then true
    else if b.toNat < a.toNat then false
    else charListLe as bs

/-- Lexicographic order on strings by code point. -/
def strLe (a b : String) : Bool := charListLe a.data b.data

/-- Sort a `ResourceToSync` list by resource name (the persisted order the
test observes). -/
def sortByResource (l : List ResourceToSync) : List ResourceToSync :=
  l.insertionSort (fun a b => strLe a.resource b.resource = true)

/-! ### The discovery aggregator (spec §4.3) -/

/-- The fixed baseline resource names of the syncer virtual workspace, read
off `requiredAPIResourceListWithService` in the test: configmaps,
namespaces, namespaces/status, secrets, serviceaccounts. -/
def baselineResources : List String :=
  ["configmaps", "namespaces", "namespaces/status", "secrets", "serviceaccounts"]

/-- The resource names contributed by a `SyncedResources` list: each entry
whose state is Accepted contributes its resource and its status
subresource; Pending and Incompatible entries contribute nothing. -/
def acceptedResourceNames (synced : List ResourceToSync) : List String :=
  (synced.filter fun r => r.State = ResourceSchemaAcceptedState).flatMap
    fun r => [r.resource, r.resource ++ "/status"]

/-- Modelled from the spec (§4.3, not in the embedded sources): the scoped
discovery document, as the list of resource names it advertises — the
fixed baseline merged with the Accepted entries of the sync target's
status, in stable sorted order by resource name. -/
def Discover (synced : List ResourceToSync) : List String :=
  (baselineResources ++ acceptedResourceNames synced).insertionSort
    (fun a b => strLe a b = true)

/-! ### Write ownership of SyncTargetStatus.SyncedResources -/

/-- The two parties the `types.go` doc comments name as writers of
SyncTarget status fields: the kcp server (the control plane's
reconciliation loop) and the syncer. -/
inductive StatusWriter where
  | kcpServer
  | syncer
deriving DecidableEq, Repr

/-- `SyncTargetStatus`, reduced to the fields whose write ownership the
doc comments describe. -/
structure SyncTargetStatusM where
  SyncedResources : List ResourceToSync
  LastSyncerHeartbeatTime : Option Nat
deriving DecidableEq, Repr

/-- Replace the `State` field of the i-th entry of a `SyncedResources`
list, leaving every other field and entry unchanged. -/
def setEntryState : List ResourceToSync → Nat → String → List ResourceToSync
  | [], _, _ => []
  | r :: rest, 0, v => { r with State := v } :: rest
  | r :: rest, n + 1, v => r :: setEntryState rest n v

/-- The part of a `ResourceToSync` entry other than its `State`. -/
def stripState (r : ResourceToSync) : GroupResource × List String × String :=
  (r.key, r.Versions, r.IdentityHash)

/-- The status mutations and their writers, as declared by the doc comments
of `types.go`: `SyncedResources` "MUST be updated by kcp server"
(membership, versions, identity hashes), each entry's `State` "must be
updated by syncer after checking the API compaibility on SyncTarget", and
the heartbeat timestamp records when "the syncer last reported status". -/
inductive StatusStep : StatusWriter → SyncTargetStatusM → SyncTargetStatusM → Prop where
  | serverWriteSyncedResources (st : SyncTargetStatusM) (l : List ResourceToSync) :
      StatusStep .kcpServer st { st with SyncedResources := l }
  | syncerSetEntryState (st : SyncTargetStatusM) (i : Nat) (v : String) :
      StatusStep .syncer st
        { st with SyncedResources := setEntryState st.SyncedResources i v }
  | syncerHeartbeat (st : SyncTargetStatusM) (t : Nat) :
      StatusStep .syncer st { st with LastSyncerHeartbeatTime := some t }

/-- A SyncTarget status holding one `cowboys` entry still in the Pending
state. -/
def c1Before : SyncTargetStatusM :=
  ⟨[⟨"wildwest.dev", "cowboys", ["v1alpha1"], "services-identity-hash",
      ResourceSchemaPendingState⟩], none⟩

/-- `c1Before` after the syncer updates the entry's compatibility state to
Incompatible. -/
def c1After : SyncTargetStatusM :=
  { c1Before with
    SyncedResources :=
      setEntryState c1Before.SyncedResources 0 ResourceSchemaIncomptibleState }

/-! ### The per-object sync state machine -/

/-- The per-sync-target sync state carried on one upstream object, per the
constants of `types.go`: the value of the
`state.workload.kcp.dev/<sync-target-name>` label (`none` when absent), the
`deletion.internal.workload.kcp.dev/<sync-target-name>` timestamp, the
comma-separated `finalizers.workload.kcp.dev/<sync-target-name>` list, and
the `experimental.status.workload.kcp.dev/<sync-target-name>` blob. -/
structure ObjState where
  stateLabel : Option String
  deletionTimestamp : Option String
  finalizers : Option String
  statusBlob : Option String
deriving DecidableEq, Repr

/-- The finalizer annotation is absent or empty: per the comment on
`ClusterResourceStateLabelPrefix`, the syncer blocks deletion while the
annotation "exists and is non-empty". -/
def finalizersEmpty (s : ObjState) : Prop :=
  s.finalizers = none ∨ s.finalizers = some ""

instance (s : ObjState) : Decidable (finalizersEmpty s) := by
  unfold finalizersEmpty; infer_instance

/-- The parties that may touch the per-object sync state. -/
inductive Actor where
  | workloadController
  | coordinationController
  | scheduler
  | syncer
  | externalController
deriving DecidableEq, Repr

/-- Modelled from the spec (§4.4) and the label/annotation protocol
documented on the constants of `types.go` (the controllers and the syncer
enforcing it are not among the embedded sources): the allowed mutations of
the per-object sync state, indexed by the acting party.  The scheduler
assigns with an empty label value; a coordination controller (or the
scheduler) raises the empty value to `Sync`; a workload controller writes
the deletion timestamp while the label stays `Sync`; external controllers
may rewrite the finalizer list at any time; the syncer writes the
downstream status of an object it syncs and removes the state label at the
end of deletion only once the finalizer annotation is absent or empty. -/
inductive SyncStateStep : Actor → ObjState → ObjState → Prop where
  | assign (s : ObjState) (h : s.stateLabel = none) :
      SyncStateStep .scheduler s { s with stateLabel := some ResourceStatePending }
  | startSync (a : Actor) (s : ObjState)
      (ha : a = .coordinationController ∨ a = .scheduler)
      (h : s.stateLabel = some ResourceStatePending) :
      SyncStateStep a s { s with stateLabel := some ResourceStateSync }
  | markDeleting (s : ObjState) (ts : String)
      (h : s.stateLabel = some ResourceStateSync)
      (hd : s.deletionTimestamp = none) :
      SyncStateStep .workloadController s { s with deletionTimestamp := some ts }
  | setFinalizers (s : ObjState) (fz : Option String) :
      SyncStateStep .externalController s { s with finalizers := fz }
  | writeDownstreamStatus (s : ObjState) (blob : String)
      (h : s.stateLabel = some ResourceStateSync) :
      SyncStateStep .syncer s { s with statusBlob := some blob }
  | removeStateLabel (s : ObjState)
      (h : s.stateLabel = some ResourceStateSync)
      (hd : s.deletionTimestamp ≠ none)
      (hf : finalizersEmpty s) :
      SyncStateStep .syncer s { s with stateLabel := none }

/-! ### Heartbeat health (spec §4.2, Scenario D) -/

/-- A status condition, reduced to the fields the heartbeat logic sets. -/
structure Condition where
  condType : String
  status : Bool
  reason : String
deriving DecidableEq, Repr

/-- Modelled from the spec (§4.2 and Scenario D, not in the embedded
sources): the StatusReconciler's heartbeat handling.  When the time since
the last observed heartbeat exceeds the configured threshold, the
`HeartbeatHealthy` condition is false with the source's
`ErrorHeartbeatMissedReason`; otherwise it is true. -/
def reconcileHeartbeat (now threshold lastHeartbeat : Nat) : Condition :=
  if threshold < now - lastHeartbeat then
    ⟨HeartbeatHealthy, false, ErrorHeartbeatMissedReason⟩
  else
    ⟨HeartbeatHealthy, true, ""⟩

/-! ### The discovery resource entries of the test (C5) -/

/-- `metav1.APIResource` as used by `requiredAPIResourceListWithService`
in the test. -/
structure APIResource where
  Kind : String
  Name : String
  SingularName : String
  Namespaced : Bool
  Verbs : List String
  StorageVersionHash : String
deriving DecidableEq, Repr

/-- Modelled from the spec: `discovery.StorageVersionHash` is not among the
embedded sources; per spec §4.3 it is deterministic in (scope identity,
group, version, kind) and distinguishes scopes, so it is modelled as the
separator-joined tuple, for which scope-injectivity is provable by append
cancellation. -/
def StorageVersionHash (scope group version kind : String) : String :=
  scope ++ "/" ++ group ++ "/" ++ version ++ "/" ++ kind

/-- `requiredAPIResourceListWithService` from the test: the expected
discovery document of the syncer virtual workspace for group-version `v1`,
given the compute workspace (scope of the baseline kinds) and the schema
workspace (scope of the exported Service kind). -/
def requiredAPIResourceListWithService
    (computeClusterName serviceClusterName : String) : List APIResource :=
  [⟨"ConfigMap", "configmaps", "configmap", true,
      ["get", "list", "patch", "update", "watch"],
      StorageVersionHash computeClusterName "" "v1" "ConfigMap"⟩,
   ⟨"Namespace", "namespaces", "namespace", false,
      ["get", "list", "patch", "update", "watch"],
      StorageVersionHash computeClusterName "" "v1" "Namespace"⟩,
   ⟨"Namespace", "namespaces/status", "", false,
      ["get", "patch", "update"], ""⟩,
   ⟨"Secret", "secrets", "secret", true,
      ["get", "list", "patch", "update", "watch"],
      StorageVersionHash computeClusterName "" "v1" "Secret"⟩,
   ⟨"ServiceAccount", "serviceaccounts", "serviceaccount", true,
      ["get", "list", "patch", "update", "watch"],
      StorageVersionHash computeClusterName "" "v1" "ServiceAccount"⟩,
   ⟨"Service", "services", "service", true,
      ["get", "list", "patch", "update", "watch"],
      StorageVersionHash serviceClusterName "" "v1" "Service"⟩,
   ⟨"Service", "services/status", "", true,
      ["get", "patch", "update"], ""⟩]

/-- The storage-version hash carried by the entry of a given name in a
discovery resource list. -/
def entryHash (l : List APIResource) (n : String) : Option String :=
  (l.find? fun r => r.Name = n).map (·.StorageVersionHash)

/-- Right cancellation for string append. -/
theorem string_append_right_cancel (a b c : String) (h : a ++ c = b ++ c) :
    a = b := by
  have hd : a.data ++ c.data = b.data ++ c.data := by
    simpa [String.data_append] using congrArg String.data h
  have hab : a.data = b.data := List.append_cancel_right hd
  cases a; cases b
  exact congrArg String.mk hab

/-- For a fixed (group, version, kind), distinct scopes give distinct
storage-version hashes. -/
theorem StorageVersionHash_scope_inj (g v k c c' : String) (h : c ≠ c') :
    StorageVersionHash c g v k ≠ StorageVersionHash c' g v k := by
  intro he
  simp only [StorageVersionHash] at he
  apply h
  have h1 := string_append_right_cancel _ _ _ he
  have h2 := string_append_right_cancel _ _ _ h1
  have h3 := string_append_right_cancel _ _ _ h2
  have h4 := string_append_right_cancel _ _ _ h3
  have h5 := string_append_right_cancel _ _ _ h4
  exact string_append_right_cancel _ _ _ h5

/-- Every element of the deduplicated list comes from the input list. -/
theorem mem_of_mem_dedupKeysAux {r : ResourceToSync} :
    ∀ (l : List ResourceToSync) (seen : List GroupResource),
      r ∈ dedupKeysAux seen l → r ∈ l := by
  intro l
  induction l with
  | nil => intro seen h; simp [dedupKeysAux] at h
  | cons a t ih =>
    intro seen h
    by_cases ha : a.key ∈ seen
    · simp only [dedupKeysAux, if_pos ha] at h
      exact List.mem_cons_of_mem _ (ih _ h)
    · simp only [dedupKeysAux, if_neg ha, List.mem_cons] at h
      rcases h with h | h
      · exact h ▸ List.mem_cons_self _ _
      · exact List.mem_cons_of_mem _ (ih _ h)

/-- Deduplication produces pairwise-distinct (group, resource) keys, none
of which was already seen. -/
theorem dedupKeysAux_keys_nodup :
    ∀ (l : List ResourceToSync) (seen : List GroupResource),
      (dedupKeysAux seen l).Pairwise (fun a b => a.key ≠ b.key)
      ∧ ∀ r ∈ dedupKeysAux seen l, r.key ∉ seen := by
  intro l
  induction l with
  | nil => intro seen; simp [dedupKeysAux]
  | cons a t ih =>
    intro seen
    by_cases ha : a.key ∈ seen
    · simpa only [dedupKeysAux, if_pos ha] using ih seen
    · have ih2 := ih (a.key :: seen)
      simp only [dedupKeysAux, if_neg ha]
      refine ⟨List.Pairwise.cons ?_ ih2.1, ?_⟩
      · intro b hb hk
        exact ih2.2 b hb (hk ▸ List.mem_cons_self _ _)
      · intro r hr
        rcases List.mem_cons.mp hr with rfl | hr'
        · exact ha
        · intro hs
          exact ih2.2 r hr' (List.mem_cons_of_mem _ hs)

/-- The resolver never emits an entry with an empty version list. -/
theorem resolve_versions_ne_nil (exports : List ExportRef)
    (catalog : ExportRef → Option ExportSchemas) (rep : Option CapabilityReport) :
    ∀ r ∈ Resolve exports catalog rep, r.Versions ≠ [] := by
  intro r hr
  have hr' := mem_of_mem_dedupKeysAux _ _ hr
  simp only [List.mem_flatMap] at hr'
  obtain ⟨ref, _, hmem⟩ := hr'
  cases hcat : catalog ref with
  | none => rw [hcat] at hmem; simp at hmem
  | some es =>
    rw [hcat] at hmem
    simp only [List.mem_filterMap] at hmem
    obtain ⟨s, _, heq⟩ := hmem
    by_cases hv : s.versions = []
    · simp [hv] at heq
    · rw [if_neg hv] at heq
      cases heq
      exact hv

end KcpWorkload

namespace KcpWorkload

/-! ### Theorems for claims C9 and C10 -/

/-- Claim C9: `crdLister.Get` looks the CustomResourceDefinition up under
the cluster-aware key built from the fixed `SystemCRDLogicalCluster`, so
the result is the same for every requesting context: all callers observe
only the system workspace's CRDs. -/
theorem crdLister_Get_uses_system_cluster_key (c : crdLister)
    (ctx₁ ctx₂ : RequestContext) (name : String) :
    crdLister.Get c ctx₁ name
      = c.lister (ToClusterAwareKey SystemCRDLogicalCluster name)
    ∧ crdLister.Get c ctx₁ name = crdLister.Get c ctx₂ name := by
  exact ⟨rfl, rfl⟩

/-- Claim C10: `IndexAPIExportBySecret` errors exactly on non-APIExport
arguments; an APIExport with nil identity, nil secret ref, or an empty
secret namespace or name indexes to no key; any other APIExport indexes to
exactly the one key `<namespace>/<cluster-aware key of the secret name>`. -/
theorem IndexAPIExportBySecret_spec :
    (∀ t, IndexAPIExportBySecret (.other t)
        = .error ("obj " ++ t ++ " is not an APIExport"))
    ∧ (∀ e, ∃ l, IndexAPIExportBySecret (.apiExport e) = .ok l)
    ∧ (∀ e, (e.spec.identity = none
          ∨ (∃ idty, e.spec.identity = some idty ∧ idty.secretRef = none)
          ∨ (∃ idty ref, e.spec.identity = some idty ∧ idty.secretRef = some ref
              ∧ (ref.Namespace = "" ∨ ref.Name = ""))) →
        IndexAPIExportBySecret (.apiExport e) = .ok [])
    ∧ (∀ e idty ref, e.spec.identity = some idty → idty.secretRef = some ref →
        ref.Namespace ≠ "" → ref.Name ≠ "" →
        IndexAPIExportBySecret (.apiExport e)
          = .ok [ref.Namespace ++ "/" ++ ToClusterAwareKey e.clusterName ref.Name]) := by
  refine ⟨fun t => rfl, ?_, ?_, ?_⟩
  · intro e
    obtain ⟨cl, ⟨oid⟩⟩ := e
    cases oid with
    | none => exact ⟨[], rfl⟩
    | some idty =>
      obtain ⟨oref⟩ := idty
      cases oref with
      | none => exact ⟨[], rfl⟩
      | some ref =>
        by_cases hr : ref.Namespace = "" ∨ ref.Name = ""
        · exact ⟨[], by simp [IndexAPIExportBySecret, hr]⟩
        · exact ⟨[ref.Namespace ++ "/" ++ ToClusterAwareKey cl ref.Name],
            by simp [IndexAPIExportBySecret, hr]⟩
  · intro e h
    rcases h with h | ⟨idty, hi, hr⟩ | ⟨idty, ref, hi, hr, hemp⟩
    · simp [IndexAPIExportBySecret, h]
    · simp [IndexAPIExportBySecret, hi, hr]
    · simp [IndexAPIExportBySecret, hi, hr, hemp]
  · intro e idty ref hi hr hn hm
    have : ¬ (ref.Namespace = "" ∨ ref.Name = "") := by
      intro h; rcases h with h | h
      · exact hn h
      · exact hm h
    simp [IndexAPIExportBySecret, hi, hr, this]

/-- Claim C3: the discovery query of Scenario B returns exactly the
baseline resources plus `services` and `services/status`, with `cowboys`
absent; and on any status list, every advertised name is either a baseline
resource or derived from an entry whose state is Accepted — no Pending or
Incompatible resource ever appears. -/
theorem discovery_scenarioB_and_only_accepted :
    (Discover scenarioAResolved
        = ["configmaps", "namespaces", "namespaces/status", "secrets",
           "serviceaccounts", "services", "services/status"]
      ∧ "cowboys" ∉ Discover scenarioAResolved)
    ∧ ∀ (synced : List ResourceToSync) (name : String), name ∈ Discover synced →
        name ∈ baselineResources
        ∨ ∃ r, r ∈ synced ∧ r.State = ResourceSchemaAcceptedState
            ∧ (name = r.resource ∨ name = r.resource ++ "/status") := by
  refine ⟨⟨by decide, by decide⟩, ?_⟩
  intro synced name h
  rw [Discover, (List.perm_insertionSort _ _).mem_iff] at h
  rcases List.mem_append.mp h with h | h
  · exact Or.inl h
  · right
    simp only [acceptedResourceNames, List.mem_flatMap, List.mem_filter,
      decide_eq_true_eq, List.mem_cons, List.mem_singleton] at h
    obtain ⟨r, ⟨hmem, hstate⟩, hname⟩ := h
    exact ⟨r, hmem, hstate, by simpa using hname⟩

/-- Witness for claim C3: instantiating the universal part at the Scenario
A status and the advertised name `services` yields its Accepted origin. -/
theorem discovery_only_accepted_witness :
    "services" ∈ baselineResources
    ∨ ∃ r, r ∈ scenarioAResolved ∧ r.State = ResourceSchemaAcceptedState
        ∧ ("services" = r.resource ∨ "services" = r.resource ++ "/status") :=
  discovery_scenarioB_and_only_accepted.2 scenarioAResolved "services" (by decide)

/-- Counterexample for claim C5: the `services/status` entry of the
expected discovery document carries the empty storage-version hash in every
scope, so two queries on different scopes see the SAME hash for that entry
of kind Service — the claim that every entry's hash is computed from
(scope, group, version, kind) and differs across scopes fails on the
status subresource entries. -/
theorem services_status_hash_equal_across_scopes :
    entryHash (requiredAPIResourceListWithService "scope-one" "scope-one")
        "services/status" = some ""
    ∧ entryHash (requiredAPIResourceListWithService "scope-two" "scope-two")
        "services/status" = some ""
    ∧ ("scope-one" : String) ≠ "scope-two" :=
  ⟨by decide, by decide, by decide⟩

/-- Claim C5 as amended: every main-resource entry of the expected
discovery document carries the storage-version hash computed from its
scope, group, version and kind — identical for equal scopes by
determinism, distinct for distinct scopes — while the two status
subresource entries carry the empty hash in every scope. -/
theorem required_list_storage_version_hashes (c s c' k : String) (h : c ≠ c') :
    ((requiredAPIResourceListWithService c s).map (·.StorageVersionHash)
      = [StorageVersionHash c "" "v1" "ConfigMap",
         StorageVersionHash c "" "v1" "Namespace", "",
         StorageVersionHash c "" "v1" "Secret",
         StorageVersionHash c "" "v1" "ServiceAccount",
         StorageVersionHash s "" "v1" "Service", ""])
    ∧ StorageVersionHash c "" "v1" k ≠ StorageVersionHash c' "" "v1" k :=
  ⟨rfl, StorageVersionHash_scope_inj _ _ _ _ _ h⟩

/-- Witness for the amended claim C5, at two concrete distinct scopes. -/
theorem required_list_storage_version_hashes_witness :
    ((requiredAPIResourceListWithService "scope-one" "scope-one").map
        (·.StorageVersionHash)
      = [StorageVersionHash "scope-one" "" "v1" "ConfigMap",
         StorageVersionHash "scope-one" "" "v1" "Namespace", "",
         StorageVersionHash "scope-one" "" "v1" "Secret",
         StorageVersionHash "scope-one" "" "v1" "ServiceAccount",
         StorageVersionHash "scope-one" "" "v1" "Service", ""])
    ∧ StorageVersionHash "scope-one" "" "v1" "ConfigMap"
        ≠ StorageVersionHash "scope-two" "" "v1" "ConfigMap" :=
  required_list_storage_version_hashes "scope-one" "scope-one" "scope-two"
    "ConfigMap" (by decide)

/-- Counterexample for claim C2: with the Scenario A inputs — export
"services" with schemas `test.services.core` then
`today.cowboys.wildwest.dev`, capability reported only for services — the
resolver's spec order puts `services` first and `cowboys` second, and that
order fails the check `TestSyncTargetExport` performs, which demands
`cowboys` at index 0 and `services` at index 1. -/
theorem scenarioA_spec_order_fails_test_check :
    testSyncedResourcesCheck scenarioAResolved = false := by decide

/-- Claim C2 as amended: the resolved `SyncedResources` of Scenario A has
exactly two entries, `cowboys` with state Incompatible first and `services`
with state Accepted second — the entries appear sorted by resource name,
as the test asserts, not in the resolver's spec order. -/
theorem scenarioA_sorted_synced_resources :
    sortByResource scenarioAResolved
      = [⟨"wildwest.dev", "cowboys", ["v1alpha1"], "services-identity-hash",
          ResourceSchemaIncomptibleState⟩,
         ⟨"", "services", ["v1"], "services-identity-hash",
          ResourceSchemaAcceptedState⟩]
    ∧ testSyncedResourcesCheck (sortByResource scenarioAResolved) = true := by
  exact ⟨by decide, by decide⟩

/-- Claim C6: for every resolver input, the resulting `SyncedResources`
list contains no two entries with the same (group, resource) key, and every
entry's `Versions` list is non-empty. -/
theorem resolve_nodup_keys_and_nonempty_versions (exports : List ExportRef)
    (catalog : ExportRef → Option ExportSchemas) (rep : Option CapabilityReport) :
    (Resolve exports catalog rep).Pairwise (fun a b => a.key ≠ b.key)
    ∧ ∀ r ∈ Resolve exports catalog rep, r.Versions ≠ [] :=
  ⟨(dedupKeysAux_keys_nodup _ []).1, resolve_versions_ne_nil _ _ _⟩

/-- Witness for claim C6: on the Scenario A inputs the resolved list has
pairwise-distinct keys, and its `services` entry has a non-empty version
list. -/
theorem resolve_nodup_keys_and_nonempty_versions_witness :
    scenarioAResolved.Pairwise (fun a b => a.key ≠ b.key)
    ∧ (⟨"", "services", ["v1"], "services-identity-hash",
        ResourceSchemaAcceptedState⟩ : ResourceToSync).Versions ≠ [] :=
  ⟨(resolve_nodup_keys_and_nonempty_versions [servicesExportRef] scenarioACatalog
      (some scenarioAReport)).1,
   (resolve_nodup_keys_and_nonempty_versions [servicesExportRef] scenarioACatalog
      (some scenarioAReport)).2 _ (by decide)⟩

/-- `setEntryState` changes nothing outside the `State` fields. -/
theorem setEntryState_map_stripState :
    ∀ (l : List ResourceToSync) (i : Nat) (v : String),
      (setEntryState l i v).map stripState = l.map stripState := by
  intro l
  induction l with
  | nil => intro i v; rfl
  | cons r rest ih =>
    intro i v
    cases i with
    | zero => simp [setEntryState, stripState, ResourceToSync.key]
    | succ n => simp [setEntryState, ih n v]

/-- Counterexample for claim C1: per the doc comment on
`ResourceToSync.State` ("It must be updated by syncer after checking the
API compaibility on SyncTarget"), the syncer performs a status step that
changes the `SyncedResources` list — its entry's compatibility state — so
the list is not written only by the control plane. -/
theorem syncer_updates_entry_state :
    StatusStep .syncer c1Before c1After
    ∧ c1After.SyncedResources ≠ c1Before.SyncedResources
    ∧ c1After.SyncedResources.map (·.State) = [ResourceSchemaIncomptibleState] :=
  ⟨StatusStep.syncerSetEntryState c1Before 0 ResourceSchemaIncomptibleState,
   by decide, by decide⟩

/-- Claim C1 as amended: any status step that changes the `SyncedResources`
list is either a kcp-server (control-plane) write, or a syncer write that
changes nothing besides the entries' `State` fields — list membership,
versions and identity hashes are written only by the control plane, while
each entry's compatibility `State` is updated by the syncer. -/
theorem synced_resources_write_ownership (w : StatusWriter)
    (st st' : SyncTargetStatusM) (hstep : StatusStep w st st')
    (hch : st'.SyncedResources ≠ st.SyncedResources) :
    w = .kcpServer
    ∨ (w = .syncer
        ∧ st'.SyncedResources.map stripState = st.SyncedResources.map stripState) := by
  cases hstep with
  | serverWriteSyncedResources st2 l => exact Or.inl rfl
  | syncerSetEntryState st2 i v =>
    exact Or.inr ⟨rfl, setEntryState_map_stripState _ _ _⟩
  | syncerHeartbeat st2 t => exact absurd rfl hch

/-- Witness for the amended claim C1: the syncer's concrete state update is
classified as a syncer write that only touches `State` fields. -/
theorem synced_resources_write_ownership_witness :
    StatusWriter.syncer = .kcpServer
    ∨ (StatusWriter.syncer = .syncer
        ∧ c1After.SyncedResources.map stripState
            = c1Before.SyncedResources.map stripState) :=
  synced_resources_write_ownership .syncer c1Before c1After
    (StatusStep.syncerSetEntryState c1Before 0 ResourceSchemaIncomptibleState)
    (by decide)

/-- Claim C4: while the deletion marker is present, no allowed step from a
state whose label is `Sync` and whose finalizer list is non-empty changes
the label — the object never transitions to Removed (label cleared) while
the finalizer list is non-empty. -/
theorem deleting_keeps_sync_until_finalizers_empty
    (a : Actor) (s t : ObjState) (hstep : SyncStateStep a s t)
    (_hdel : s.deletionTimestamp ≠ none)
    (hsync : s.stateLabel = some ResourceStateSync)
    (hfin : ¬ finalizersEmpty s) :
    t.stateLabel = some ResourceStateSync := by
  cases hstep with
  | assign s' h => rw [h] at hsync; exact Option.noConfusion hsync
  | startSync a' s' ha h => rfl
  | markDeleting s' ts h hd => exact hsync
  | setFinalizers s' fz => exact hsync
  | writeDownstreamStatus s' blob h => exact hsync
  | removeStateLabel s' h hd hf => exact absurd hf hfin

/-- Witness for claim C4: an external controller rewriting the finalizer
list of an object that is mid-deletion with a pending finalizer leaves the
state label at `Sync`. -/
theorem deleting_keeps_sync_until_finalizers_empty_witness :
    (⟨some ResourceStateSync, some "2022-01-01T00:00:00Z", some "custom/fin",
        none⟩ : ObjState).stateLabel = some ResourceStateSync :=
  deleting_keeps_sync_until_finalizers_empty .externalController
    ⟨some ResourceStateSync, some "2022-01-01T00:00:00Z",
      some "example.com/cleanup", none⟩ _
    (SyncStateStep.setFinalizers
      ⟨some ResourceStateSync, some "2022-01-01T00:00:00Z",
        some "example.com/cleanup", none⟩ (some "custom/fin"))
    (by decide) rfl (by decide)

/-- Claim C8: the syncer takes no action on an object whose state label
value is empty, and the transition of the label value from empty to `Sync`
is performed only by a coordination controller or the scheduler, never by
the syncer. -/
theorem empty_label_ignored_by_syncer :
    (∀ s t, SyncStateStep .syncer s t → s.stateLabel ≠ some ResourceStatePending)
    ∧ (∀ (a : Actor) (s t : ObjState), SyncStateStep a s t →
        s.stateLabel = some ResourceStatePending →
        t.stateLabel = some ResourceStateSync →
        a = .coordinationController ∨ a = .scheduler) := by
  constructor
  · intro s t hstep
    cases hstep with
    | startSync a' s' ha h =>
      rcases ha with ha | ha <;> exact absurd ha (by decide)
    | writeDownstreamStatus s' blob h => rw [h]; decide
    | removeStateLabel s' h hd hf => rw [h]; decide
  · intro a s t hstep hpend hsync
    cases hstep with
    | assign s' h => rw [h] at hpend; exact Option.noConfusion hpend
    | startSync a' s' ha h => exact ha
    | markDeleting s' ts h hd => rw [h] at hpend; exact absurd hpend (by decide)
    | setFinalizers s' fz =>
      have h2 : s.stateLabel = some ResourceStateSync := hsync
      rw [hpend] at h2
      exact absurd h2 (by decide)
    | writeDownstreamStatus s' blob h => rw [h] at hpend; exact absurd hpend (by decide)
    | removeStateLabel s' h hd hf => rw [h] at hpend; exact absurd hpend (by decide)

/-- Witness for claim C8: a concrete syncer step (removing the state label
at the end of deletion) starts from a non-empty label value, and a concrete
coordination-controller step performs the empty-to-`Sync` transition. -/
theorem empty_label_ignored_by_syncer_witness :
    (⟨some ResourceStateSync, some "2022-01-01T00:00:00Z", none, none⟩ :
        ObjState).stateLabel ≠ some ResourceStatePending
    ∧ (Actor.coordinationController = Actor.coordinationController
        ∨ Actor.coordinationController = Actor.scheduler) :=
  ⟨empty_label_ignored_by_syncer.1
      ⟨some ResourceStateSync, some "2022-01-01T00:00:00Z", none, none⟩ _
      (SyncStateStep.removeStateLabel
        ⟨some ResourceStateSync, some "2022-01-01T00:00:00Z", none, none⟩
        rfl (by decide) (Or.inl rfl)),
   empty_label_ignored_by_syncer.2 .coordinationController
      ⟨some ResourceStatePending, none, none, none⟩ _
      (SyncStateStep.startSync .coordinationController
        ⟨some ResourceStatePending, none, none, none⟩ (Or.inl rfl) rfl)
      rfl rfl⟩

/-- Claim C7: a reconciliation pass observing a heartbeat older than the
threshold sets the `HeartbeatHealthy` condition to false with reason
"ErrorHeartbeat"; a later pass observing a fresh heartbeat sets it back to
true. -/
theorem heartbeat_condition_flips (threshold now₁ last₁ now₂ last₂ : Nat)
    (hstale : threshold < now₁ - last₁) (hfresh : now₂ - last₂ ≤ threshold) :
    (reconcileHeartbeat now₁ threshold last₁).status = false
    ∧ (reconcileHeartbeat now₁ threshold last₁).reason
        = ErrorHeartbeatMissedReason
    ∧ (reconcileHeartbeat now₁ threshold last₁).condType = HeartbeatHealthy
    ∧ (reconcileHeartbeat now₂ threshold last₂).status = true := by
  have h2 : ¬ threshold < now₂ - last₂ := Nat.not_lt.mpr hfresh
  simp [reconcileHeartbeat, hstale, h2]

/-- Witness for claim C7: threshold 60, a heartbeat 100 units stale, then
a heartbeat 10 units fresh. -/
theorem heartbeat_condition_flips_witness :
    (reconcileHeartbeat 100 60 0).status = false
    ∧ (reconcileHeartbeat 100 60 0).reason = ErrorHeartbeatMissedReason
    ∧ (reconcileHeartbeat 100 60 0).condType = HeartbeatHealthy
    ∧ (reconcileHeartbeat 130 60 120).status = true :=
  heartbeat_condition_flips 60 100 0 130 120 (by decide) (by decide)

/-- Witness for claim C10: evaluating the index function on a concrete
APIExport with a populated identity secret reference yields exactly the one
expected key. -/
theorem IndexAPIExportBySecret_spec_witness :
    IndexAPIExportBySecret
        (.apiExport ⟨"root:org:ws", ⟨some ⟨some ⟨"default", "my-secret"⟩⟩⟩⟩)
      = .ok ["default" ++ "/" ++ ToClusterAwareKey "root:org:ws" "my-secret"] := by
  exact IndexAPIExportBySecret_spec.2.2.2
    ⟨"root:org:ws", ⟨some ⟨some ⟨"default", "my-secret"⟩⟩⟩⟩
    ⟨some ⟨"default", "my-secret"⟩⟩ ⟨"default", "my-secret"⟩
    rfl rfl (by decide) (by decide)

end KcpWorkload
